import Mathlib

/-
Verification of the natural-language specification of the ML repository
(an MLOps demonstration pipeline) against its Python sources.

The Python code is shallowly embedded: each relevant function becomes a
Lean definition over explicit data (strings become lists of characters,
machine floats become rationals, fallible library calls become values of
an environment record returning Except, console output becomes lists of
classification values).  The sources embedded here are:
  - one/retrain_housing.py        (retrain_housing_model)
  - generate_sample_data.py       (generate_sample_requests jitter)
  - test_api.py                   (test_api_endpoints, test_prediction_endpoint)
  - troubleshoot_monitoring.py    (MonitoringTroubleshooter)
-/

/-! ### Python string primitives, modelled over lists of characters -/

/-- The apostrophe character, used by the Python repr of a string. -/
def quoteChar : Char := Char.ofNat 39

/-- Characters treated as whitespace by Python str.strip and str.split. -/
def isWs (c : Char) : Bool :=
  c == ' ' || c == '\t' || c == '\n' || c == '\r' || c == '\x0b' || c == '\x0c'

/-- Python str.strip: drop leading and trailing whitespace. -/
def pyStripL (l : List Char) : List Char :=
  ((l.dropWhile isWs).reverse.dropWhile isWs).reverse

/-- Split a character list at every occurrence of the separator character
(Python str.split with an explicit one-character separator): the result
keeps empty pieces, as Python does. -/
def splitOnChar (sep : Char) : List Char → List (List Char)
  | [] => [[]]
  | c :: t =>
    if c == sep then [] :: splitOnChar sep t
    else
      match splitOnChar sep t with
      | [] => [[c]]
      | h :: r => (c :: h) :: r

/-- Helper for pySplitWs: accumulates the current word (reversed). -/
def splitWsAux : List Char → List Char → List (List Char)
  | [], cur => if cur == [] then [] else [cur.reverse]
  | c :: t, cur =>
    if isWs c then
      if cur == [] then splitWsAux t [] else cur.reverse :: splitWsAux t []
    else splitWsAux t (c :: cur)

/-- Python str.split with no argument: split on runs of whitespace,
discarding empty pieces. -/
def pySplitWs (l : List Char) : List (List Char) := splitWsAux l []

/-- Does the second list start with the first one? -/
def startsWith : List Char → List Char → Bool
  | [], _ => true
  | _ :: _, [] => false
  | a :: s, b :: t => a == b && startsWith s t

/-- Python substring membership (the `in` operator on strings):
the needle occurs contiguously inside the haystack. -/
def containsSub (needle : List Char) : List Char → Bool
  | [] => startsWith needle []
  | c :: t => startsWith needle (c :: t) || containsSub needle t

/-- True when the list has no apostrophe, so that the Python repr of the
corresponding string is just the string wrapped in apostrophes. -/
def noQuote (l : List Char) : Bool := l.all (fun c => !(c == quoteChar))

/-! ### Basic lemmas about the string primitives -/

theorem startsWith_containsSub (n h : List Char) (hs : startsWith n h = true) :
    containsSub n h = true := by
  cases h with
  | nil => simpa [containsSub] using hs
  | cons c t => simp [containsSub, hs]

theorem splitOnChar_shape (q : Char) (h : List Char) :
    ∃ r, splitOnChar q h = (h.takeWhile (fun c => !(c == q))) :: r := by
  induction h with
  | nil => exact ⟨[], rfl⟩
  | cons c t ih =>
    by_cases hc : c == q
    · refine ⟨splitOnChar q t, ?_⟩
      simp [splitOnChar, hc, List.takeWhile]
    · obtain ⟨r, hr⟩ := ih
      refine ⟨r, ?_⟩
      simp [splitOnChar, hc, hr, List.takeWhile]

theorem startsWith_takeWhile (n h : List Char) (hq : noQuote n = true)
    (hs : startsWith n h = true) :
    startsWith n (h.takeWhile (fun c => !(c == quoteChar))) = true := by
  induction n generalizing h with
  | nil => rfl
  | cons a s ih =>
    cases h with
    | nil => exact absurd hs (by simp [startsWith])
    | cons b t =>
      simp only [startsWith, Bool.and_eq_true, beq_iff_eq] at hs
      obtain ⟨rfl, hs2⟩ := hs
      simp only [noQuote, List.all_cons, Bool.and_eq_true] at hq
      have hb : (!(a == quoteChar)) = true := hq.1
      simp only [List.takeWhile, hb]
      simp only [startsWith, Bool.and_eq_true, beq_iff_eq]
      exact ⟨trivial, ih t hq.2 hs2⟩

theorem containsSub_step (q : Char) (n : List Char) (c : Char) (t comp : List Char)
    (hmem : comp ∈ splitOnChar q t) (hc : containsSub n comp = true) :
    ∃ x ∈ splitOnChar q (c :: t), containsSub n x = true := by
  by_cases hcq : c == q
  · refine ⟨comp, ?_, hc⟩
    simp [splitOnChar, hcq, hmem]
  · obtain ⟨r, hr⟩ := splitOnChar_shape q t
    rw [hr] at hmem
    rcases List.mem_cons.1 hmem with hhead | htail
    · refine ⟨c :: comp, ?_, ?_⟩
      · rw [hhead]
        simp [splitOnChar, hcq, hr]
      · simp [containsSub, hc]
    · refine ⟨comp, ?_, hc⟩
      simp [splitOnChar, hcq, hr, htail]

theorem containsSub_to_component (n h : List Char) (hq : noQuote n = true)
    (hc : containsSub n h = true) :
    ∃ comp ∈ splitOnChar quoteChar h, containsSub n comp = true := by
  induction h with
  | nil => exact ⟨[], by simp [splitOnChar], hc⟩
  | cons c t ih =>
    simp only [containsSub, Bool.or_eq_true] at hc
    rcases hc with hs | hrest
    · obtain ⟨r, hr⟩ := splitOnChar_shape quoteChar (c :: t)
      refine ⟨(c :: t).takeWhile (fun x => !(x == quoteChar)), ?_, ?_⟩
      · rw [hr]; exact List.mem_cons_self _ _
      · exact startsWith_containsSub _ _ (startsWith_takeWhile n (c :: t) hq hs)
    · obtain ⟨comp, hmem, hcomp⟩ := ih hrest
      exact containsSub_step quoteChar n c t comp hmem hcomp

/-! ### Embedding of troubleshoot_monitoring.py -/

/-- The fixed service registry of MonitoringTroubleshooter.__init__
(name, port), in insertion order. -/
def services : List (String × Nat) :=
  [("grafana", 3000), ("prometheus", 9090), ("housing-api", 8000),
   ("iris-api", 8001), ("retraining", 8002), ("mlflow", 5000)]

/-- Issue string appended by run_diagnostics when a port check fails. -/
def portIssue (port : Nat) : List Char :=
  ("Port " ++ toString port ++ " not accessible").toList

/-- Issue string appended by run_diagnostics when a health check fails. -/
def serviceIssue (name : String) : List Char :=
  ("Service " ++ name ++ " unhealthy").toList

/-- The port-check issues produced by run_diagnostics when exactly the
services picked out by `pf` fail their TCP port check (services are
visited in registry order). -/
def portIssues (pf : String → Bool) : List (List Char) :=
  (services.filter (fun sv => pf sv.1)).map (fun sv => portIssue sv.2)

/-- The health-check issues produced by run_diagnostics when exactly the
services picked out by `hf` fail their HTTP health check. -/
def healthIssues (hf : String → Bool) : List (List Char) :=
  (services.filter (fun sv => hf sv.1)).map (fun sv => serviceIssue sv.1)

/-- Python repr of a string without apostrophes: wrap it in apostrophes. -/
def pyReprE (e : List Char) : List Char := quoteChar :: (e ++ [quoteChar])

/-- The comma-space joined interior of Python str applied to a list of
strings. -/
def pyJoinRepr : List (List Char) → List Char
  | [] => []
  | e :: r =>
    pyReprE e ++ (match r with
      | [] => []
      | _ :: _ => ',' :: ' ' :: pyJoinRepr r)

/-- Python str applied to a list of strings (none containing an
apostrophe): the form suggest_fixes matches its fixed keys against. -/
def pyStrList (xs : List (List Char)) : List Char :=
  '[' :: (pyJoinRepr xs ++ [']'])

/-- An apostrophe rendered as a one-character string (for fix texts). -/
def apos : String := Char.toString quoteChar

/-- MonitoringTroubleshooter.suggest_fixes: matches fixed substrings
against the Python str of the issue list and collects canned hints. -/
def suggest_fixes (issues : List (List Char)) : List String :=
  let s := pyStrList issues
  (if containsSub ("Docker is not running".toList) s then
    ["🔧 Start Docker Desktop or Docker daemon",
     "   Windows: Start Docker Desktop application",
     "   Linux: sudo systemctl start docker"] else []) ++
  (if containsSub ("docker-compose.monitoring.yml not found".toList) s then
    ["🔧 Make sure you" ++ apos ++ "re in the project root directory",
     "   cd /path/to/mlops-housing-pipeline"] else []) ++
  (if containsSub ("containers not running".toList) s then
    ["🔧 Start the services:",
     "   docker-compose -f docker-compose.monitoring.yml up -d"] else []) ++
  (if containsSub ("port conflicts".toList) s then
    ["🔧 Stop conflicting services or change ports",
     "   Check what" ++ apos ++ "s using the ports: netstat -an | findstr :3000"] else []) ++
  (if containsSub ("services not healthy".toList) s then
    ["🔧 Wait a few minutes for services to start",
     "🔧 Check logs: docker-compose -f docker-compose.monitoring.yml logs",
     "🔧 Restart services: docker-compose -f docker-compose.monitoring.yml restart"] else []) ++
  (if containsSub ("no metrics".toList) s then
    ["🔧 Generate some data: python test_api_samples.py",
     "🔧 Check Prometheus targets: http://localhost:9090/targets"] else [])

/-- Insert into the (insertion-ordered) dictionary of container states,
replacing the value in place when the key is already present, exactly as
assignment into a Python dict does. -/
def dictInsert (acc : List (List Char × List Char × Bool)) (k : List Char)
    (v : List Char × Bool) : List (List Char × List Char × Bool) :=
  match acc with
  | [] => [(k, v)]
  | (k2, v2) :: t => if k2 == k then (k, v) :: t else (k2, v2) :: dictInsert t k v

/-- One iteration of the parsing loop of check_container_status: skip a
blank line, split the line on whitespace, require at least 4 fields, take
the first field as the container name and the last as its state, and mark
it running iff the state contains "Up". -/
def insertLine (acc : List (List Char × List Char × Bool)) (line : List Char) :
    List (List Char × List Char × Bool) :=
  if pyStripL line == [] then acc
  else
    let parts := pySplitWs line
    if 4 ≤ parts.length then
      dictInsert acc (parts.headD [])
        (parts.getLastD [], containsSub ("Up".toList) (parts.getLastD []))
    else acc

/-- The lines of the docker-compose ps output after stripping the whole
output and dropping the two header rows (result.stdout.strip().split
newline, then [2:]). -/
def postHeaderLines (stdout : List Char) : List (List Char) :=
  (splitOnChar '\n' (pyStripL stdout)).drop 2

/-- MonitoringTroubleshooter.check_container_status, given the stdout of
the docker-compose ps subprocess (the zero-exit-code branch). -/
def check_container_status (stdout : List Char) :
    List (List Char × List Char × Bool) :=
  (postHeaderLines stdout).foldl insertLine []


/-! ### Components of the Python str of an issue list -/

theorem splitOnChar_cons_ne (q c : Char) (l x : List Char) (r : List (List Char))
    (hc : (c == q) = false) (hl : splitOnChar q l = x :: r) :
    splitOnChar q (c :: l) = (c :: x) :: r := by
  simp only [splitOnChar, hc, Bool.false_eq_true, if_false, hl]

theorem splitOnChar_append (q : Char) (a b h : List Char) (t : List (List Char))
    (ha : a.all (fun c => !(c == q)) = true)
    (hb : splitOnChar q b = h :: t) :
    splitOnChar q (a ++ b) = (a ++ h) :: t := by
  induction a with
  | nil => simpa using hb
  | cons c a2 ih =>
    simp only [List.all_cons, Bool.and_eq_true] at ha
    have hcq : (c == q) = false := by simpa using ha.1
    have hrec : splitOnChar q (a2 ++ b) = (a2 ++ h) :: t := ih ha.2
    rw [List.cons_append]
    exact splitOnChar_cons_ne q c (a2 ++ b) (a2 ++ h) t hcq hrec

theorem splitOnChar_quote_cons (q : Char) (b : List Char) :
    splitOnChar q (q :: b) = [] :: splitOnChar q b := by
  simp [splitOnChar]

theorem pyJoinRepr_cons_shape (e : List Char) (r : List (List Char)) :
    ∃ z, pyJoinRepr (e :: r) = quoteChar :: z := by
  cases r with
  | nil => exact ⟨e ++ [quoteChar], by simp [pyJoinRepr, pyReprE]⟩
  | cons a l =>
    exact ⟨(e ++ [quoteChar]) ++ (',' :: ' ' :: pyJoinRepr (a :: l)),
      by simp [pyJoinRepr, pyReprE]⟩

/-- Every apostrophe-free component of the joined issue interior followed
by the closing bracket is one of the fixed punctuation pieces or one of
the issue strings themselves. -/
theorem pyJoinRepr_components (xs : List (List Char))
    (hq : ∀ e ∈ xs, noQuote e = true) :
    ∀ comp ∈ splitOnChar quoteChar (pyJoinRepr xs ++ [']']),
      comp = [] ∨ comp = [']'] ∨ comp = [',', ' '] ∨ comp ∈ xs := by
  induction xs with
  | nil =>
    intro comp hc
    have h0 : splitOnChar quoteChar (pyJoinRepr [] ++ [']']) = [[']']] := by decide
    rw [h0] at hc
    simp only [List.mem_singleton] at hc
    right; left; exact hc
  | cons e r ih =>
    intro comp hc
    have hall : e.all (fun c => !(c == quoteChar)) = true :=
      hq e (List.mem_cons_self _ _)
    cases r with
    | nil =>
      have h2 : splitOnChar quoteChar (quoteChar :: [']']) = [[], [']']] := by decide
      have h3 := splitOnChar_append quoteChar e (quoteChar :: [']']) [] [[']']]
        hall h2
      simp only [List.append_nil] at h3
      have hshape : pyJoinRepr [e] ++ [']'] =
          quoteChar :: (e ++ (quoteChar :: [']'])) := by
        simp [pyJoinRepr, pyReprE]
      rw [hshape] at hc
      rw [splitOnChar_quote_cons, h3] at hc
      simp only [List.mem_cons, List.mem_singleton] at hc
      rcases hc with hc | hc | hc | hc
      · left; exact hc
      · right; right; right; rw [hc]; exact List.mem_cons_self _ _
      · right; left; exact hc
      · cases hc
    | cons r0 rs =>
      obtain ⟨z0, hz0⟩ := pyJoinRepr_cons_shape r0 rs
      have hT : pyJoinRepr (r0 :: rs) ++ [']'] = quoteChar :: (z0 ++ [']']) := by
        rw [hz0]; rfl
      have hTsplit : splitOnChar quoteChar (pyJoinRepr (r0 :: rs) ++ [']']) =
          [] :: splitOnChar quoteChar (z0 ++ [']']) := by
        rw [hT]; exact splitOnChar_quote_cons _ _
      have hmid := splitOnChar_append quoteChar [',', ' ']
        (pyJoinRepr (r0 :: rs) ++ [']']) []
        (splitOnChar quoteChar (z0 ++ [']'])) (by decide) hTsplit
      simp only [List.append_nil] at hmid
      have hmid2 : splitOnChar quoteChar
          (quoteChar :: ([',', ' '] ++ (pyJoinRepr (r0 :: rs) ++ [']']))) =
          [] :: [',', ' '] :: splitOnChar quoteChar (z0 ++ [']']) := by
        rw [splitOnChar_quote_cons, hmid]
      have houter := splitOnChar_append quoteChar e
        (quoteChar :: ([',', ' '] ++ (pyJoinRepr (r0 :: rs) ++ [']'])))
        [] ([',', ' '] :: splitOnChar quoteChar (z0 ++ [']'])) hall hmid2
      simp only [List.append_nil] at houter
      have hfull : splitOnChar quoteChar (quoteChar ::
          (e ++ (quoteChar :: ([',', ' '] ++ (pyJoinRepr (r0 :: rs) ++ [']']))))) =
          [] :: e :: [',', ' '] :: splitOnChar quoteChar (z0 ++ [']']) := by
        rw [splitOnChar_quote_cons, houter]
      have hshape : pyJoinRepr (e :: r0 :: rs) ++ [']'] =
          quoteChar ::
            (e ++ (quoteChar :: ([',', ' '] ++ (pyJoinRepr (r0 :: rs) ++ [']'])))) := by
        simp [pyJoinRepr, pyReprE]
      rw [hshape, hfull] at hc
      simp only [List.mem_cons] at hc
      rcases hc with hc | hc | hc | hc
      · left; exact hc
      · right; right; right; rw [hc]; exact List.mem_cons_self _ _
      · right; right; left; exact hc
      · have hcz : comp ∈ splitOnChar quoteChar (pyJoinRepr (r0 :: rs) ++ [']']) := by
          rw [hTsplit]
          exact List.mem_cons_of_mem _ hc
        have hres := ih (fun x hx => hq x (List.mem_cons_of_mem _ hx)) comp hcz
        rcases hres with h1 | h1 | h1 | h1
        · left; exact h1
        · right; left; exact h1
        · right; right; left; exact h1
        · right; right; right; exact List.mem_cons_of_mem _ h1

/-- Every apostrophe-free component of the Python str of an issue list is
a fixed punctuation piece or one of the issue strings. -/
theorem pyStrList_components (xs : List (List Char))
    (hq : ∀ e ∈ xs, noQuote e = true) :
    ∀ comp ∈ splitOnChar quoteChar (pyStrList xs),
      comp = ['[', ']'] ∨ comp = ['['] ∨ comp = [] ∨ comp = [']'] ∨
        comp = [',', ' '] ∨ comp ∈ xs := by
  intro comp hc
  cases xs with
  | nil =>
    have h0 : splitOnChar quoteChar (pyStrList []) = [['[', ']']] := by decide
    rw [h0] at hc
    simp only [List.mem_singleton] at hc
    left; exact hc
  | cons e r =>
    obtain ⟨z0, hz0⟩ := pyJoinRepr_cons_shape e r
    have hT : pyJoinRepr (e :: r) ++ [']'] = quoteChar :: (z0 ++ [']']) := by
      rw [hz0]; rfl
    have hTsplit : splitOnChar quoteChar (pyJoinRepr (e :: r) ++ [']']) =
        [] :: splitOnChar quoteChar (z0 ++ [']']) := by
      rw [hT]; exact splitOnChar_quote_cons _ _
    have houter := splitOnChar_append quoteChar ['[']
      (pyJoinRepr (e :: r) ++ [']']) []
      (splitOnChar quoteChar (z0 ++ [']'])) (by decide) hTsplit
    simp only [List.append_nil] at houter
    have hshape : pyStrList (e :: r) = ['['] ++ (pyJoinRepr (e :: r) ++ [']']) := rfl
    rw [hshape, houter] at hc
    simp only [List.mem_cons] at hc
    rcases hc with hc | hc
    · right; left; exact hc
    · have hcz : comp ∈ splitOnChar quoteChar (pyJoinRepr (e :: r) ++ [']']) := by
        rw [hTsplit]
        exact List.mem_cons_of_mem _ hc
      rcases pyJoinRepr_components (e :: r) hq comp hcz with h1 | h1 | h1 | h1
      · right; right; left; exact h1
      · right; right; right; left; exact h1
      · right; right; right; right; left; exact h1
      · right; right; right; right; right; exact h1

/-- A needle without apostrophes that occurs in none of the punctuation
pieces and in none of the issue strings does not occur in the Python str
of the issue list. -/
theorem containsSub_pyStrList_false (n : List Char) (xs : List (List Char))
    (hn : noQuote n = true)
    (hp1 : containsSub n ['[', ']'] = false)
    (hp2 : containsSub n ['['] = false)
    (hp3 : containsSub n [] = false)
    (hp4 : containsSub n [']'] = false)
    (hp5 : containsSub n [',', ' '] = false)
    (hxs : ∀ e ∈ xs, noQuote e = true ∧ containsSub n e = false) :
    containsSub n (pyStrList xs) = false := by
  cases hb : containsSub n (pyStrList xs)
  · rfl
  · exfalso
    obtain ⟨comp, hmem, hcomp⟩ := containsSub_to_component n (pyStrList xs) hn hb
    rcases pyStrList_components xs (fun e he => (hxs e he).1) comp hmem with
      h | h | h | h | h | h
    · rw [h] at hcomp; rw [hp1] at hcomp; cases hcomp
    · rw [h] at hcomp; rw [hp2] at hcomp; cases hcomp
    · rw [h] at hcomp; rw [hp3] at hcomp; cases hcomp
    · rw [h] at hcomp; rw [hp4] at hcomp; cases hcomp
    · rw [h] at hcomp; rw [hp5] at hcomp; cases hcomp
    · rw [(hxs comp h).2] at hcomp; cases hcomp

/-! ### Lemmas about the container-status dictionary -/

theorem dictInsert_mem (acc : List (List Char × List Char × Bool))
    (k : List Char) (v : List Char × Bool) (x : List Char × List Char × Bool)
    (hx : x ∈ dictInsert acc k v) : x = (k, v) ∨ x ∈ acc := by
  induction acc with
  | nil =>
    simp only [dictInsert, List.mem_singleton] at hx
    left; exact hx
  | cons p t ih =>
    obtain ⟨k2, v2⟩ := p
    simp only [dictInsert] at hx
    by_cases hk : k2 == k
    · rw [if_pos hk] at hx
      rcases List.mem_cons.1 hx with h | h
      · left; exact h
      · right; exact List.mem_cons_of_mem _ h
    · rw [if_neg hk] at hx
      rcases List.mem_cons.1 hx with h | h
      · right; rw [h]; exact List.mem_cons_self _ _
      · rcases ih h with h2 | h2
        · left; exact h2
        · right; exact List.mem_cons_of_mem _ h2

theorem dictInsert_self (acc : List (List Char × List Char × Bool))
    (k : List Char) (v : List Char × Bool) : (k, v) ∈ dictInsert acc k v := by
  induction acc with
  | nil => exact List.mem_singleton.2 rfl
  | cons p t ih =>
    obtain ⟨k2, v2⟩ := p
    simp only [dictInsert]
    by_cases hk : k2 == k
    · rw [if_pos hk]; exact List.mem_cons_self _ _
    · rw [if_neg hk]; exact List.mem_cons_of_mem _ ih

theorem dictInsert_key_mono (acc : List (List Char × List Char × Bool))
    (k : List Char) (v : List Char × Bool) (k2 : List Char)
    (h : ∃ w, (k2, w) ∈ acc) : ∃ w, (k2, w) ∈ dictInsert acc k v := by
  induction acc with
  | nil => obtain ⟨w, hw⟩ := h; cases hw
  | cons p t ih =>
    obtain ⟨ka, va⟩ := p
    obtain ⟨w, hw⟩ := h
    simp only [dictInsert]
    by_cases hk : ka == k
    · have hkeq : ka = k := by simpa using hk
      rw [if_pos hk]
      rcases List.mem_cons.1 hw with h1 | h1
      · have : k2 = ka := congrArg Prod.fst h1
        refine ⟨v, ?_⟩
        rw [this, hkeq]
        exact List.mem_cons_self _ _
      · exact ⟨w, List.mem_cons_of_mem _ h1⟩
    · rw [if_neg hk]
      rcases List.mem_cons.1 hw with h1 | h1
      · refine ⟨w, ?_⟩; rw [h1]; exact List.mem_cons_self _ _
      · obtain ⟨w2, hw2⟩ := ih ⟨w, h1⟩
        exact ⟨w2, List.mem_cons_of_mem _ hw2⟩

theorem insertLine_key_mono (acc : List (List Char × List Char × Bool))
    (line : List Char) (k2 : List Char)
    (h : ∃ w, (k2, w) ∈ acc) : ∃ w, (k2, w) ∈ insertLine acc line := by
  unfold insertLine
  by_cases h1 : pyStripL line == []
  · rw [if_pos h1]; exact h
  · rw [if_neg h1]
    by_cases h2 : 4 ≤ (pySplitWs line).length
    · simp only [if_pos h2]
      exact dictInsert_key_mono acc _ _ k2 h
    · simp only [if_neg h2]
      exact h

theorem foldl_insertLine_key_mono (lines : List (List Char))
    (acc : List (List Char × List Char × Bool)) (k2 : List Char)
    (h : ∃ w, (k2, w) ∈ acc) :
    ∃ w, (k2, w) ∈ lines.foldl insertLine acc := by
  induction lines generalizing acc with
  | nil => exact h
  | cons l ls ih => exact ih (insertLine acc l) (insertLine_key_mono acc l k2 h)

theorem insertLine_mem (acc : List (List Char × List Char × Bool))
    (line : List Char) (x : List Char × List Char × Bool)
    (hx : x ∈ insertLine acc line) :
    x ∈ acc ∨
      (pyStripL line ≠ [] ∧ 4 ≤ (pySplitWs line).length ∧
        (pySplitWs line).headD [] = x.1 ∧ (pySplitWs line).getLastD [] = x.2.1 ∧
        x.2.2 = containsSub ("Up".toList) x.2.1) := by
  unfold insertLine at hx
  by_cases h1 : pyStripL line == []
  · rw [if_pos h1] at hx; left; exact hx
  · rw [if_neg h1] at hx
    by_cases h2 : 4 ≤ (pySplitWs line).length
    · simp only [if_pos h2] at hx
      rcases dictInsert_mem _ _ _ _ hx with h | h
      · right
        refine ⟨by simpa using h1, h2, ?_, ?_, ?_⟩
        · rw [h]
        · rw [h]
        · rw [h]
      · left; exact h
    · simp only [if_neg h2] at hx
      left; exact hx

theorem foldl_insertLine_mem (lines : List (List Char))
    (acc : List (List Char × List Char × Bool))
    (x : List Char × List Char × Bool)
    (hx : x ∈ lines.foldl insertLine acc) :
    x ∈ acc ∨
      ∃ line ∈ lines, pyStripL line ≠ [] ∧ 4 ≤ (pySplitWs line).length ∧
        (pySplitWs line).headD [] = x.1 ∧ (pySplitWs line).getLastD [] = x.2.1 ∧
        x.2.2 = containsSub ("Up".toList) x.2.1 := by
  induction lines generalizing acc with
  | nil => left; exact hx
  | cons l ls ih =>
    rcases ih (insertLine acc l) hx with h | h
    · rcases insertLine_mem acc l x h with h2 | h2
      · left; exact h2
      · right; exact ⟨l, List.mem_cons_self _ _, h2⟩
    · obtain ⟨line, hmem, hrest⟩ := h
      right; exact ⟨line, List.mem_cons_of_mem _ hmem, hrest⟩

theorem foldl_insertLine_covers (lines : List (List Char))
    (acc : List (List Char × List Char × Bool)) (line : List Char)
    (hmem : line ∈ lines) (h1 : pyStripL line ≠ [])
    (h2 : 4 ≤ (pySplitWs line).length) :
    ∃ w, ((pySplitWs line).headD [], w) ∈ lines.foldl insertLine acc := by
  induction lines generalizing acc with
  | nil => cases hmem
  | cons l ls ih =>
    rcases List.mem_cons.1 hmem with heq | htail
    · subst heq
      have hkey : ∃ w, ((pySplitWs line).headD [], w) ∈ insertLine acc line := by
        unfold insertLine
        have hb : (pyStripL line == []) = false := by
          cases hx : pyStripL line == []
          · rfl
          · exact absurd (by simpa using hx) h1
        rw [hb]
        simp only [Bool.false_eq_true, if_false]
        simp only [if_pos h2]
        exact ⟨_, dictInsert_self acc _ _⟩
      exact foldl_insertLine_key_mono ls (insertLine acc line) _ hkey
    · exact ih (insertLine acc l) htail

/-! ### Embedding of one/retrain_housing.py

The pandas dataframe, the sklearn estimators and the mlflow client are
external collaborators; their behaviour is supplied through a
RetrainEnv record of (possibly failing) functions, while the control
flow, the branch conditions, the candidate order, the selection of the
best model and the summary construction are translated from the source. -/

/-- Rows of a dataframe of rational feature values. -/
abbrev DF := List (List ℚ)

/-- Result of train_test_split: train/test features and targets. -/
structure SplitData where
  X_train : DF
  X_test : DF
  y_train : List ℚ
  y_test : List ℚ
deriving DecidableEq

/-- The two fixed candidate model kinds of retrain_housing_model:
LinearRegression() and DecisionTreeRegressor(max_depth=5). -/
inductive ModelKind where
  | linearRegression
  | decisionTree
deriving DecidableEq

/-- What train_and_log_model stores into model_performance for one
candidate: test MSE, test R2 and the mlflow run id. -/
structure Perf where
  mse : ℚ
  r2 : ℚ
  run_id : String
deriving DecidableEq

/-- The retrain_results dictionary built on success. -/
structure RetrainSummary where
  retrain_timestamp : String
  best_model : String
  performance : Perf
  all_models : List (String × Perf)
  data_source : String
deriving DecidableEq

/-- The value returned by retrain_housing_model: either the success
summary or the error dictionary built by the top-level except clause. -/
inductive RetrainResult where
  | ok (s : RetrainSummary)
  | error (msg : String)
deriving DecidableEq

/-- Observable side effects of a run (file reads and writes and the
registry call), recorded in order of attempt. -/
inductive Effect where
  | readCsv (path : String)
  | registerCall (name : String)
  | writeFile (path : String)
deriving DecidableEq

/-- The external world of retrain_housing_model.  Each field models one
library call that can raise (Except.error carries the exception
message). -/
structure RetrainEnv where
  new_data_path : Option String
  pathExists : String → Bool
  readCsv : String → Except String DF
  splitTarget : DF → Except String (DF × List ℚ)
  trainTestSplit : DF → List ℚ → ℚ → Nat → Except String SplitData
  makedirs : Except String Unit
  trainModel : ModelKind → SplitData → Except String Perf
  registerModel : String → String → Except String Nat
  writeResults : RetrainSummary → Except String Unit
  now : String

/-- Python truthiness of the optional string argument: None and the
empty string are falsy. -/
def pyTruthyStr : Option String → Bool
  | none => false
  | some s => !(s == "")

/-- The canonical processed-dataset path of the fallback branch. -/
def defaultDataPath : String := "../data/housing.csv"

/-- The branch on new_data_path at the top of retrain_housing_model:
load from new_data_path iff it is truthy and os.path.exists holds,
otherwise load the existing data. -/
def chosenDataPath (ndp : Option String) (ex : String → Bool) : String :=
  if pyTruthyStr ndp && ex (ndp.getD "") then ndp.getD "" else defaultDataPath

/-- The data_source field of the summary: new_data_path if truthy, else
the literal "existing_data" (note: no existence check here). -/
def dataSourceField (ndp : Option String) : String :=
  if pyTruthyStr ndp then ndp.getD "" else "existing_data"

/-- Python min over the keys of model_performance with key mse: fold
that replaces the current minimum only on strictly smaller mse, so the
first-seen candidate wins ties. -/
def pyMinByMse : List (String × Perf) → Option (String × Perf)
  | [] => none
  | p :: ps => some (ps.foldl (fun acc q => if q.2.mse < acc.2.mse then q else acc) p)

/-- The train_test_split call of the source, with its fixed arguments
test_size=0.2 and random_state=42. -/
def splitStep (env : RetrainEnv) (X : DF) (y : List ℚ) : Except String SplitData :=
  env.trainTestSplit X y (mkRat 2 10) 42

/-- The body of the outer try of retrain_housing_model, with the
attempted effects recorded alongside.  The registration step has its own
inner try whose outcome is only printed, so it does not influence the
rest of the run. -/
def retrainBody (env : RetrainEnv) : Except String RetrainSummary × List Effect :=
  let path := chosenDataPath env.new_data_path env.pathExists
  let log0 : List Effect := [Effect.readCsv path]
  match env.readCsv path with
  | Except.error m => (Except.error m, log0)
  | Except.ok df =>
    match env.splitTarget df with
    | Except.error m => (Except.error m, log0)
    | Except.ok (X, y) =>
      match splitStep env X y with
      | Except.error m => (Except.error m, log0)
      | Except.ok spl =>
        match env.makedirs with
        | Except.error m => (Except.error m, log0)
        | Except.ok _ =>
          match env.trainModel ModelKind.linearRegression spl with
          | Except.error m => (Except.error m, log0)
          | Except.ok perfL =>
            match env.trainModel ModelKind.decisionTree spl with
            | Except.error m => (Except.error m, log0)
            | Except.ok perfD =>
              let model_performance :=
                [("LinearRegression", perfL), ("DecisionTree", perfD)]
              match pyMinByMse model_performance with
              | none => (Except.error "min() arg is an empty sequence", log0)
              | some best =>
                let log1 := log0 ++ [Effect.registerCall "HousingPricePredictor"]
                let _regOutcome :=
                  env.registerModel "HousingPricePredictor" best.2.run_id
                let summary : RetrainSummary :=
                  { retrain_timestamp := env.now
                    best_model := best.1
                    performance := best.2
                    all_models := model_performance
                    data_source := dataSourceField env.new_data_path }
                let log2 := log1 ++ [Effect.writeFile "../retrain_results.json"]
                match env.writeResults summary with
                | Except.error m => (Except.error m, log2)
                | Except.ok _ => (Except.ok summary, log2)

/-- retrain_housing_model: the body wrapped in the top-level
try/except, which turns any escaped exception into the error
dictionary. -/
def retrain_housing_model (env : RetrainEnv) : RetrainResult × List Effect :=
  match retrainBody env with
  | (Except.ok s, log) => (RetrainResult.ok s, log)
  | (Except.error m, log) => (RetrainResult.error m, log)

/-! ### Embedding of generate_sample_data.py -/

/-- One prediction request record (floats modelled as rationals). -/
structure Record where
  total_rooms : ℚ
  total_bedrooms : ℚ
  population : ℚ
  households : ℚ
  median_income : ℚ
  housing_median_age : ℚ
  latitude : ℚ
  longitude : ℚ
deriving DecidableEq

/-- The five hand-authored base samples of generate_sample_requests. -/
def sample_variations : List Record :=
  [{ total_rooms := 4500, total_bedrooms := 900, population := 3000,
     households := 1000, median_income := mkRat 55 10, housing_median_age := 26,
     latitude := mkRat 3786 100, longitude := -(mkRat 12227 100) },
   { total_rooms := 3200, total_bedrooms := 650, population := 2100,
     households := 750, median_income := mkRat 42 10, housing_median_age := 35,
     latitude := mkRat 3405 100, longitude := -(mkRat 11824 100) },
   { total_rooms := 6800, total_bedrooms := 1200, population := 4500,
     households := 1500, median_income := mkRat 81 10, housing_median_age := 15,
     latitude := mkRat 3777 100, longitude := -(mkRat 12242 100) },
   { total_rooms := 2800, total_bedrooms := 580, population := 1800,
     households := 620, median_income := mkRat 38 10, housing_median_age := 42,
     latitude := mkRat 3271 100, longitude := -(mkRat 11716 100) },
   { total_rooms := 5200, total_bedrooms := 1050, population := 3500,
     households := 1200, median_income := mkRat 67 10, housing_median_age := 28,
     latitude := mkRat 3739 100, longitude := -(mkRat 12208 100) }]

/-- One draw of the eight independent random.uniform jitter values. -/
structure Jitter where
  rooms_f : ℚ
  bedrooms_f : ℚ
  pop_f : ℚ
  households_f : ℚ
  income_f : ℚ
  age_f : ℚ
  lat_d : ℚ
  lon_d : ℚ
deriving DecidableEq

/-- The documented ranges of the jitter draws: random.uniform(a, b)
always lies in the closed interval [a, b]. -/
def Jitter.inRange (j : Jitter) : Prop :=
  mkRat 8 10 ≤ j.rooms_f ∧ j.rooms_f ≤ mkRat 12 10 ∧
  mkRat 8 10 ≤ j.bedrooms_f ∧ j.bedrooms_f ≤ mkRat 12 10 ∧
  mkRat 8 10 ≤ j.pop_f ∧ j.pop_f ≤ mkRat 12 10 ∧
  mkRat 8 10 ≤ j.households_f ∧ j.households_f ≤ mkRat 12 10 ∧
  mkRat 9 10 ≤ j.income_f ∧ j.income_f ≤ mkRat 11 10 ∧
  mkRat 9 10 ≤ j.age_f ∧ j.age_f ≤ mkRat 11 10 ∧
  -(mkRat 1 10) ≤ j.lat_d ∧ j.lat_d ≤ mkRat 1 10 ∧
  -(mkRat 1 10) ≤ j.lon_d ∧ j.lon_d ≤ mkRat 1 10

instance (j : Jitter) : Decidable j.inRange := by
  unfold Jitter.inRange; infer_instance

/-- The jitter application of generate_sample_requests lines 81-88:
multiplicative jitter on six fields, additive on the coordinates. -/
def jitterSample (base : Record) (j : Jitter) : Record :=
  { total_rooms := base.total_rooms * j.rooms_f
    total_bedrooms := base.total_bedrooms * j.bedrooms_f
    population := base.population * j.pop_f
    households := base.households * j.households_f
    median_income := base.median_income * j.income_f
    housing_median_age := base.housing_median_age * j.age_f
    latitude := base.latitude + j.lat_d
    longitude := base.longitude + j.lon_d }

/-- The bounds the specification claims for a jittered record relative
to its base record. -/
def jitterWithin (base out : Record) : Prop :=
  (mkRat 8 10 * base.total_rooms ≤ out.total_rooms ∧
    out.total_rooms ≤ mkRat 12 10 * base.total_rooms) ∧
  (mkRat 8 10 * base.total_bedrooms ≤ out.total_bedrooms ∧
    out.total_bedrooms ≤ mkRat 12 10 * base.total_bedrooms) ∧
  (mkRat 8 10 * base.population ≤ out.population ∧
    out.population ≤ mkRat 12 10 * base.population) ∧
  (mkRat 8 10 * base.households ≤ out.households ∧
    out.households ≤ mkRat 12 10 * base.households) ∧
  (mkRat 9 10 * base.median_income ≤ out.median_income ∧
    out.median_income ≤ mkRat 11 10 * base.median_income) ∧
  (mkRat 9 10 * base.housing_median_age ≤ out.housing_median_age ∧
    out.housing_median_age ≤ mkRat 11 10 * base.housing_median_age) ∧
  (base.latitude - mkRat 1 10 ≤ out.latitude ∧
    out.latitude ≤ base.latitude + mkRat 1 10) ∧
  (base.longitude - mkRat 1 10 ≤ out.longitude ∧
    out.longitude ≤ base.longitude + mkRat 1 10)

instance (base out : Record) : Decidable (jitterWithin base out) := by
  unfold jitterWithin; infer_instance

/-! ### Embedding of test_api.py -/

/-- Decidable equality for Except values with decidable components. -/
instance {e a : Type} [DecidableEq e] [DecidableEq a] : DecidableEq (Except e a) := fun x y =>
  match x, y with
  | Except.ok u, Except.ok v =>
    if h : u = v then isTrue (by rw [h]) else isFalse (by intro hc; injection hc; contradiction)
  | Except.error u, Except.error v =>
    if h : u = v then isTrue (by rw [h]) else isFalse (by intro hc; injection hc; contradiction)
  | Except.ok _, Except.error _ => isFalse (by intro hc; injection hc)
  | Except.error _, Except.ok _ => isFalse (by intro hc; injection hc)

/-- A received HTTP response: status code, the result of calling
response.json() (which can itself raise), and response.text. -/
structure HttpResp where
  status_code : Nat
  jsonResult : Except String String
  text : String
deriving DecidableEq

/-- Outcome of one requests call: a response, a
requests.exceptions.ConnectionError, or any other exception. -/
inductive HttpResult where
  | resp (r : HttpResp)
  | connectionError
  | otherError (msg : String)
deriving DecidableEq

/-- One printed line of the smoke-test script, classified: the OK line,
an informational payload line, the HTTP-failure line, the
server-not-running soft warning, or the caught-exception error line. -/
inductive Line where
  | ok (desc ep : String)
  | info (s : String)
  | fail (desc ep : String) (status : Nat)
  | warnNotRunning (desc ep : String)
  | err (desc ep : String) (msg : String)
deriving DecidableEq

/-- The fixed endpoint list of test_api_endpoints
(endpoint, method, description). -/
def endpoints_to_test : List (String × String × String) :=
  [("/", "GET", "Root endpoint"),
   ("/health", "GET", "Health check"),
   ("/app-metrics", "GET", "Application metrics"),
   ("/metrics", "GET", "Prometheus metrics")]

/-- The body of one iteration of the loop of test_api_endpoints: the
try issues the GET and classifies; ConnectionError prints the soft
warning, any other exception prints the error line.  (The raw preview
text printed for the two metrics endpoints is kept as the response text
itself; its 5-line truncation is irrelevant to classification.) -/
def testOneEndpoint (desc ep : String) (r : HttpResult) : List Line :=
  match r with
  | HttpResult.resp resp =>
    if resp.status_code = 200 then
      Line.ok desc ep ::
        (if ep = "/app-metrics" then
          match resp.jsonResult with
          | Except.ok j => [Line.info j]
          | Except.error m => [Line.err desc ep m]
        else if ep = "/metrics" then [Line.info resp.text]
        else [])
    else [Line.fail desc ep resp.status_code]
  | HttpResult.connectionError => [Line.warnNotRunning desc ep]
  | HttpResult.otherError m => [Line.err desc ep m]

/-- test_api_endpoints: run the classification for each endpoint of the
fixed list, concatenating the printed lines. -/
def test_api_endpoints (fetch : String → HttpResult) : List Line :=
  endpoints_to_test.foldl (fun acc e => acc ++ testOneEndpoint e.2.2 e.1 (fetch e.1)) []

/-- test_prediction_endpoint: POST the fixed sample, then classify.  On
a 200 the code calls response.json() before printing the OK line, so a
json failure is caught and printed as the error line; on a non-200 it
prints the failure line and the raw response text. -/
def test_prediction_endpoint (r : HttpResult) : List Line :=
  match r with
  | HttpResult.resp resp =>
    if resp.status_code = 200 then
      match resp.jsonResult with
      | Except.ok j =>
        [Line.ok "Prediction endpoint" "/predict", Line.info j]
      | Except.error m => [Line.err "Prediction endpoint" "/predict" m]
    else
      [Line.fail "Prediction endpoint" "/predict" resp.status_code,
       Line.info resp.text]
  | HttpResult.connectionError =>
    [Line.warnNotRunning "Prediction endpoint" "/predict"]
  | HttpResult.otherError m => [Line.err "Prediction endpoint" "/predict" m]

/-! ### Shared lemmas about retrain_housing_model -/

theorem retrain_of_body_ok (env : RetrainEnv) (s : RetrainSummary)
    (log : List Effect) (h : retrainBody env = (Except.ok s, log)) :
    retrain_housing_model env = (RetrainResult.ok s, log) := by
  simp [retrain_housing_model, h]

theorem retrain_of_body_error (env : RetrainEnv) (m : String)
    (log : List Effect) (h : retrainBody env = (Except.error m, log)) :
    retrain_housing_model env = (RetrainResult.error m, log) := by
  simp [retrain_housing_model, h]

theorem body_of_retrain_ok (env : RetrainEnv) (s : RetrainSummary)
    (log : List Effect) (h : retrain_housing_model env = (RetrainResult.ok s, log)) :
    retrainBody env = (Except.ok s, log) := by
  rcases hb : retrainBody env with ⟨r, lg⟩
  cases r with
  | ok s2 =>
    have h2 := retrain_of_body_ok env s2 lg hb
    rw [h2] at h
    simp only [Prod.mk.injEq, RetrainResult.ok.injEq] at h
    rw [h.1, h.2]
  | error m =>
    have h2 := retrain_of_body_error env m lg hb
    rw [h2] at h
    simp at h

theorem retrain_snd_eq (env : RetrainEnv) :
    (retrain_housing_model env).2 = (retrainBody env).2 := by
  rcases hb : retrainBody env with ⟨r, lg⟩
  cases r <;> simp [retrain_housing_model, hb]

theorem retrainBody_log_head (env : RetrainEnv) :
    (retrainBody env).2.head? =
      some (Effect.readCsv (chosenDataPath env.new_data_path env.pathExists)) := by
  simp only [retrainBody]
  repeat' split
  all_goals rfl

theorem retrain_log_head (env : RetrainEnv) :
    (retrain_housing_model env).2.head? =
      some (Effect.readCsv (chosenDataPath env.new_data_path env.pathExists)) := by
  rw [retrain_snd_eq]
  exact retrainBody_log_head env

theorem retrainBody_ok_data_source (env : RetrainEnv) (s : RetrainSummary)
    (log : List Effect) (hb : retrainBody env = (Except.ok s, log)) :
    s.data_source = dataSourceField env.new_data_path := by
  simp only [retrainBody] at hb
  repeat' split at hb
  all_goals simp_all
  all_goals rw [← hb.1]

theorem retrain_ok_data_source (env : RetrainEnv) (s : RetrainSummary)
    (log : List Effect) (h : retrain_housing_model env = (RetrainResult.ok s, log)) :
    s.data_source = dataSourceField env.new_data_path :=
  retrainBody_ok_data_source env s log (body_of_retrain_ok env s log h)

theorem pyMinByMse_pair (nL nD : String) (pL pD : Perf) :
    pyMinByMse [(nL, pL), (nD, pD)] =
      some (if pD.mse < pL.mse then (nD, pD) else (nL, pL)) := rfl

/-! ### Witness environments -/

/-- A fully successful environment: every library call succeeds, the
linear model scores MSE 2 and the tree scores MSE 1. -/
def envC1 : RetrainEnv :=
  { new_data_path := none
    pathExists := fun _ => false
    readCsv := fun _ => Except.ok [[1]]
    splitTarget := fun _ => Except.ok ([[1]], [1])
    trainTestSplit := fun _ _ _ _ => Except.ok ⟨[[1]], [[1]], [1], [1]⟩
    makedirs := Except.ok ()
    trainModel := fun k _ => match k with
      | ModelKind.linearRegression => Except.ok ⟨2, 0, "runL"⟩
      | ModelKind.decisionTree => Except.ok ⟨1, 0, "runD"⟩
    registerModel := fun _ _ => Except.ok 1
    writeResults := fun _ => Except.ok ()
    now := "t0" }

/-- An environment whose data loading raises. -/
def envBad : RetrainEnv := { envC1 with readCsv := fun _ => Except.error "read failed" }

/-- An environment whose registry call raises. -/
def envC3 : RetrainEnv :=
  { envC1 with registerModel := fun _ _ => Except.error "already registered" }

/-- An environment given a non-empty path that does not exist. -/
def envC9 : RetrainEnv := { envC1 with new_data_path := some "missing.csv" }

/-- The summary produced by envC9. -/
def sC9 : RetrainSummary :=
  { retrain_timestamp := "t0", best_model := "DecisionTree",
    performance := ⟨1, 0, "runD"⟩,
    all_models := [("LinearRegression", ⟨2, 0, "runL"⟩),
                   ("DecisionTree", ⟨1, 0, "runD"⟩)],
    data_source := "missing.csv" }

/-! ### Claims about the retraining job -/

/-- Claim C1: when both candidates train successfully, the best_model of
the returned summary is the candidate with the numerically smallest test
MSE, its recorded performance is that minimum, and on an exact tie the
first-trained candidate (LinearRegression) is selected. -/
theorem C1 (env : RetrainEnv) (df X : DF) (y : List ℚ) (spl : SplitData)
    (perfL perfD : Perf)
    (h1 : env.readCsv = fun _ => Except.ok df)
    (h2 : env.splitTarget = fun _ => Except.ok (X, y))
    (h3 : env.trainTestSplit = fun _ _ _ _ => Except.ok spl)
    (h4 : env.makedirs = Except.ok ())
    (h5 : env.trainModel ModelKind.linearRegression = fun _ => Except.ok perfL)
    (h6 : env.trainModel ModelKind.decisionTree = fun _ => Except.ok perfD)
    (h7 : env.writeResults = fun _ => Except.ok ()) :
    ∃ s log, retrain_housing_model env = (RetrainResult.ok s, log) ∧
      s.best_model =
        (if perfD.mse < perfL.mse then "DecisionTree" else "LinearRegression") ∧
      s.performance.mse = min perfL.mse perfD.mse ∧
      (perfL.mse = perfD.mse → s.best_model = "LinearRegression") := by
  simp only [retrain_housing_model, retrainBody, splitStep, h1, h2, h3, h4, h5,
    h6, h7, pyMinByMse_pair]
  by_cases hlt : perfD.mse < perfL.mse
  · refine ⟨_, _, rfl, ?_, ?_, ?_⟩
    · simp [hlt]
    · simp [hlt, min_eq_right hlt.le]
    · intro heq
      exfalso
      rw [heq] at hlt
      exact lt_irrefl _ hlt
  · refine ⟨_, _, rfl, ?_, ?_, ?_⟩
    · simp [hlt]
    · simp [hlt, min_eq_left (le_of_not_lt hlt)]
    · intro _
      simp [hlt]

theorem C1_witness :
    ∃ s log, retrain_housing_model envC1 = (RetrainResult.ok s, log) ∧
      s.best_model = (if (1 : ℚ) < 2 then "DecisionTree" else "LinearRegression") ∧
      s.performance.mse = min 2 1 ∧
      ((2 : ℚ) = 1 → s.best_model = "LinearRegression") :=
  C1 envC1 [[1]] [[1]] [1] ⟨[[1]], [[1]], [1], [1]⟩ ⟨2, 0, "runL"⟩ ⟨1, 0, "runD"⟩
    rfl rfl rfl rfl rfl rfl rfl

/-- Claim C2: retrain_housing_model never lets an exception escape: the
top-level except converts any error raised by the body into the
error-shaped result, a successful body becomes the summary, and in
particular a failing data-loading step yields the error dictionary. -/
theorem C2 (env : RetrainEnv) :
    (∀ m log, retrainBody env = (Except.error m, log) →
      retrain_housing_model env = (RetrainResult.error m, log)) ∧
    (∀ s log, retrainBody env = (Except.ok s, log) →
      retrain_housing_model env = (RetrainResult.ok s, log)) ∧
    (∀ m, env.readCsv = (fun _ => Except.error m) →
      (retrain_housing_model env).1 = RetrainResult.error m) := by
  refine ⟨fun m log h => retrain_of_body_error env m log h,
          fun s log h => retrain_of_body_ok env s log h, ?_⟩
  intro m h
  simp [retrain_housing_model, retrainBody, h]

theorem C2_witness :
    retrain_housing_model envBad =
      (RetrainResult.error "read failed", [Effect.readCsv defaultDataPath]) :=
  (C2 envBad).1 "read failed" [Effect.readCsv defaultDataPath] rfl

/-- Claim C3: if the registration step raises, the exception is caught by
the inner except (it is only printed), and the run still writes
retrain_results.json and returns the success-shaped summary. -/
theorem C3 (env : RetrainEnv) (df X : DF) (y : List ℚ) (spl : SplitData)
    (perfL perfD : Perf) (e : String)
    (h1 : env.readCsv = fun _ => Except.ok df)
    (h2 : env.splitTarget = fun _ => Except.ok (X, y))
    (h3 : env.trainTestSplit = fun _ _ _ _ => Except.ok spl)
    (h4 : env.makedirs = Except.ok ())
    (h5 : env.trainModel ModelKind.linearRegression = fun _ => Except.ok perfL)
    (h6 : env.trainModel ModelKind.decisionTree = fun _ => Except.ok perfD)
    (h7 : env.writeResults = fun _ => Except.ok ())
    (h8 : env.registerModel = fun _ _ => Except.error e) :
    ∃ s log, retrain_housing_model env = (RetrainResult.ok s, log) ∧
      Effect.registerCall "HousingPricePredictor" ∈ log ∧
      Effect.writeFile "../retrain_results.json" ∈ log := by
  simp only [retrain_housing_model, retrainBody, splitStep, h1, h2, h3, h4, h5,
    h6, h7, h8, pyMinByMse_pair]
  refine ⟨_, _, rfl, ?_, ?_⟩ <;> simp

theorem C3_witness :
    ∃ s log, retrain_housing_model envC3 = (RetrainResult.ok s, log) ∧
      Effect.registerCall "HousingPricePredictor" ∈ log ∧
      Effect.writeFile "../retrain_results.json" ∈ log :=
  C3 envC3 [[1]] [[1]] [1] ⟨[[1]], [[1]], [1], [1]⟩ ⟨2, 0, "runL"⟩ ⟨1, 0, "runD"⟩
    "already registered" rfl rfl rfl rfl rfl rfl rfl rfl

/-- Claim C4: the dataset is loaded from the canonical processed path
when new_data_path is None, empty, or does not exist, and from
new_data_path otherwise. -/
theorem C4 (env : RetrainEnv) :
    ((env.new_data_path = none ∨ env.new_data_path = some "" ∨
        env.pathExists (env.new_data_path.getD "") = false) →
      (retrain_housing_model env).2.head? = some (Effect.readCsv defaultDataPath)) ∧
    (∀ p, env.new_data_path = some p → p ≠ "" → env.pathExists p = true →
      (retrain_housing_model env).2.head? = some (Effect.readCsv p)) := by
  constructor
  · intro h
    have hc : chosenDataPath env.new_data_path env.pathExists = defaultDataPath := by
      rcases h with h | h | h
      · simp [chosenDataPath, h, pyTruthyStr]
      · simp [chosenDataPath, h, pyTruthyStr]
      · simp [chosenDataPath, h]
    rw [retrain_log_head, hc]
  · intro p hp hne hex
    have hc : chosenDataPath env.new_data_path env.pathExists = p := by
      simp [chosenDataPath, hp, pyTruthyStr, hne, hex]
    rw [retrain_log_head, hc]

theorem C4_witness :
    (retrain_housing_model envC1).2.head? = some (Effect.readCsv defaultDataPath) :=
  (C4 envC1).1 (Or.inl rfl)

/-- Claim C5: the train/test split is invoked with the fixed test
fraction 0.2 and the fixed seed 42, so any two runs whose split routine
and input rows agree produce the identical partition. -/
theorem C5 (e1 e2 : RetrainEnv) (h : e1.trainTestSplit = e2.trainTestSplit)
    (X : DF) (y : List ℚ) :
    splitStep e1 X y = splitStep e2 X y ∧
    splitStep e1 X y = e1.trainTestSplit X y (mkRat 2 10) 42 := by
  constructor
  · simp [splitStep, h]
  · rfl

theorem C5_witness :
    splitStep envC1 [[1]] [1] = splitStep envC1 [[1]] [1] ∧
    splitStep envC1 [[1]] [1] = envC1.trainTestSplit [[1]] [1] (mkRat 2 10) 42 :=
  C5 envC1 envC1 rfl [[1]] [1]

/-- Claim C9: with a non-empty but non-existent new_data_path the run
loads the canonical dataset, yet the summary's data_source equals the
supplied path; data_source is "existing_data" exactly in the None/empty
branch of the truthiness test. -/
theorem C9 (env : RetrainEnv) :
    (∀ p, env.new_data_path = some p → p ≠ "" → env.pathExists p = false →
      (retrain_housing_model env).2.head? = some (Effect.readCsv defaultDataPath) ∧
      (∀ s log, retrain_housing_model env = (RetrainResult.ok s, log) →
        s.data_source = p)) ∧
    ((env.new_data_path = none ∨ env.new_data_path = some "") →
      ∀ s log, retrain_housing_model env = (RetrainResult.ok s, log) →
        s.data_source = "existing_data") := by
  constructor
  · intro p hp hne hex
    constructor
    · have hc : chosenDataPath env.new_data_path env.pathExists = defaultDataPath := by
        simp [chosenDataPath, hp, hex]
      rw [retrain_log_head, hc]
    · intro s log h
      rw [retrain_ok_data_source env s log h]
      simp [dataSourceField, hp, pyTruthyStr, hne]
  · intro hnd s log h
    rw [retrain_ok_data_source env s log h]
    rcases hnd with h2 | h2 <;> simp [dataSourceField, h2, pyTruthyStr]

theorem C9_witness :
    (retrain_housing_model envC9).2.head? = some (Effect.readCsv defaultDataPath) ∧
    sC9.data_source = "missing.csv" :=
  ⟨((C9 envC9).1 "missing.csv" rfl (by decide) rfl).1,
   ((C9 envC9).1 "missing.csv" rfl (by decide) rfl).2 sC9
     [Effect.readCsv defaultDataPath, Effect.registerCall "HousingPricePredictor",
      Effect.writeFile "../retrain_results.json"] (by decide)⟩

/-! ### Claims about the traffic generator and the smoke test -/

/-- Lower bound for a nonnegative value scaled by a bounded factor. -/
theorem mulLow (b f lo : ℚ) (hb : 0 ≤ b) (hf : lo ≤ f) : lo * b ≤ b * f := by
  nlinarith

/-- Upper bound for a nonnegative value scaled by a bounded factor. -/
theorem mulHigh (b f hi : ℚ) (hb : 0 ≤ b) (hf : f ≤ hi) : b * f ≤ hi * b := by
  nlinarith

/-- Claim C6: for every base sample of the generator and every draw of
the jitter values within their documented ranges, the four count fields
stay within [0.8, 1.2] times base, income and age within [0.9, 1.1]
times base, and the coordinates within 0.1 of base. -/
theorem C6 (base : Record) (hb : base ∈ sample_variations) (j : Jitter)
    (hj : j.inRange) : jitterWithin base (jitterSample base j) := by
  obtain ⟨r1, r2, b1, b2, p1, p2, hh1, hh2, i1, i2, a1, a2, la1, la2, lo1, lo2⟩ := hj
  have hpos : 0 ≤ base.total_rooms ∧ 0 ≤ base.total_bedrooms ∧
      0 ≤ base.population ∧ 0 ≤ base.households ∧
      0 ≤ base.median_income ∧ 0 ≤ base.housing_median_age := by
    simp only [sample_variations, List.mem_cons, List.mem_singleton] at hb
    rcases hb with rfl | rfl | rfl | rfl | rfl | hb
    · refine ⟨by norm_num, by norm_num, by norm_num, by norm_num, by norm_num, by norm_num⟩
    · refine ⟨by norm_num, by norm_num, by norm_num, by norm_num, by norm_num, by norm_num⟩
    · refine ⟨by norm_num, by norm_num, by norm_num, by norm_num, by norm_num, by norm_num⟩
    · refine ⟨by norm_num, by norm_num, by norm_num, by norm_num, by norm_num, by norm_num⟩
    · refine ⟨by norm_num, by norm_num, by norm_num, by norm_num, by norm_num, by norm_num⟩
    · cases hb
  obtain ⟨q1, q2, q3, q4, q5, q6⟩ := hpos
  simp only [jitterWithin, jitterSample]
  exact ⟨⟨mulLow _ _ _ q1 r1, mulHigh _ _ _ q1 r2⟩,
    ⟨mulLow _ _ _ q2 b1, mulHigh _ _ _ q2 b2⟩,
    ⟨mulLow _ _ _ q3 p1, mulHigh _ _ _ q3 p2⟩,
    ⟨mulLow _ _ _ q4 hh1, mulHigh _ _ _ q4 hh2⟩,
    ⟨mulLow _ _ _ q5 i1, mulHigh _ _ _ q5 i2⟩,
    ⟨mulLow _ _ _ q6 a1, mulHigh _ _ _ q6 a2⟩,
    ⟨by linarith, by linarith⟩, ⟨by linarith, by linarith⟩⟩

/-- The identity jitter draw. -/
def jUnit : Jitter := ⟨1, 1, 1, 1, 1, 1, 0, 0⟩

theorem C6_witness :
    jitterWithin (sample_variations.headD ⟨0, 0, 0, 0, 0, 0, 0, 0⟩)
      (jitterSample (sample_variations.headD ⟨0, 0, 0, 0, 0, 0, 0, 0⟩) jUnit) :=
  C6 (sample_variations.headD ⟨0, 0, 0, 0, 0, 0, 0, 0⟩) (by decide) jUnit (by decide)

/-- Claim C7: the smoke-test checks are total classifications of the
response outcome: the endpoint loop is the concatenation of the
per-endpoint classifications, a 200 response opens with the OK line, a
non-200 response prints exactly the failure line, a connection error
prints the soft server-not-running warning, and any other exception
prints the error line; the prediction check behaves likewise. -/
theorem C7 :
    (∀ fetch : String → HttpResult, test_api_endpoints fetch =
      testOneEndpoint "Root endpoint" "/" (fetch "/") ++
      testOneEndpoint "Health check" "/health" (fetch "/health") ++
      testOneEndpoint "Application metrics" "/app-metrics" (fetch "/app-metrics") ++
      testOneEndpoint "Prometheus metrics" "/metrics" (fetch "/metrics")) ∧
    (∀ desc ep resp, resp.status_code = 200 →
      ∃ rest, testOneEndpoint desc ep (HttpResult.resp resp) = Line.ok desc ep :: rest) ∧
    (∀ desc ep resp, resp.status_code ≠ 200 →
      testOneEndpoint desc ep (HttpResult.resp resp) =
        [Line.fail desc ep resp.status_code]) ∧
    (∀ desc ep, testOneEndpoint desc ep HttpResult.connectionError =
      [Line.warnNotRunning desc ep]) ∧
    (∀ desc ep m, testOneEndpoint desc ep (HttpResult.otherError m) =
      [Line.err desc ep m]) ∧
    (∀ resp j, resp.status_code = 200 → resp.jsonResult = Except.ok j →
      test_prediction_endpoint (HttpResult.resp resp) =
        [Line.ok "Prediction endpoint" "/predict", Line.info j]) ∧
    (∀ resp, resp.status_code ≠ 200 →
      test_prediction_endpoint (HttpResult.resp resp) =
        [Line.fail "Prediction endpoint" "/predict" resp.status_code,
         Line.info resp.text]) ∧
    (test_prediction_endpoint HttpResult.connectionError =
      [Line.warnNotRunning "Prediction endpoint" "/predict"]) ∧
    (∀ m, test_prediction_endpoint (HttpResult.otherError m) =
      [Line.err "Prediction endpoint" "/predict" m]) := by
  refine ⟨?_, ?_, ?_, ?_, ?_, ?_, ?_, ?_, ?_⟩
  · intro fetch
    simp [test_api_endpoints, endpoints_to_test]
  · intro desc ep resp h
    refine ⟨if ep = "/app-metrics" then
        match resp.jsonResult with
        | Except.ok j => [Line.info j]
        | Except.error m => [Line.err desc ep m]
      else if ep = "/metrics" then [Line.info resp.text] else [], ?_⟩
    simp [testOneEndpoint, h]
  · intro desc ep resp h
    simp [testOneEndpoint, h]
  · intro desc ep
    rfl
  · intro desc ep m
    rfl
  · intro resp j h hj
    simp [test_prediction_endpoint, h, hj]
  · intro resp h
    simp [test_prediction_endpoint, h]
  · rfl
  · intro m
    rfl

theorem C7_witness :
    (∃ rest, testOneEndpoint "Health check" "/health"
      (HttpResult.resp ⟨200, Except.ok "h", "body"⟩) =
        Line.ok "Health check" "/health" :: rest) ∧
    test_prediction_endpoint (HttpResult.resp ⟨500, Except.ok "e", "err"⟩) =
      [Line.fail "Prediction endpoint" "/predict" 500, Line.info "err"] :=
  ⟨C7.2.1 "Health check" "/health" ⟨200, Except.ok "h", "body"⟩ rfl,
   C7.2.2.2.2.2.2.1 ⟨500, Except.ok "e", "err"⟩ (by decide)⟩

/-! ### Claims about the monitoring troubleshooter -/

/-- Container-list output with two header rows and one short data row. -/
def stdoutCex : List Char := "HEADER ONE\nHEADER TWO\nweb Up".toList

/-- Container-list output with two header rows and one full data row. -/
def stdoutW : List Char := "NAME IMAGE COMMAND STATE\nmore header text here\nweb img cmd Up".toList

/-- Claim C8 as stated is false: a non-blank post-header line that splits
into fewer than four whitespace-delimited fields ("web Up") yields no
entry at all in the returned mapping. -/
theorem C8_counterexample :
    "web Up".toList ∈ postHeaderLines stdoutCex ∧
    pyStripL ("web Up".toList) ≠ [] ∧
    check_container_status stdoutCex = [] := by decide

/-- Claim C8 (amended): check_container_status skips the two header
rows, splits each remaining line on whitespace, and for every non-blank
line with at least four fields stores one entry keyed by the first field
whose state is the last field and whose running flag holds iff that
state contains "Up"; non-blank lines with fewer than four fields are
skipped, and every entry of the mapping arises from such a line. -/
theorem C8_amended (stdout : List Char) :
    (∀ x ∈ check_container_status stdout,
      ∃ line ∈ postHeaderLines stdout, pyStripL line ≠ [] ∧
        4 ≤ (pySplitWs line).length ∧
        (pySplitWs line).headD [] = x.1 ∧
        (pySplitWs line).getLastD [] = x.2.1 ∧
        x.2.2 = containsSub ("Up".toList) x.2.1) ∧
    (∀ line ∈ postHeaderLines stdout, pyStripL line ≠ [] →
      4 ≤ (pySplitWs line).length →
      ∃ w, ((pySplitWs line).headD [], w) ∈ check_container_status stdout) := by
  constructor
  · intro x hx
    rcases foldl_insertLine_mem _ [] x hx with h | h
    · cases h
    · obtain ⟨line, hl, h1, h2, h3, h4, h5⟩ := h
      exact ⟨line, hl, h1, h2, h3, h4, h5⟩
  · intro line hmem h1 h2
    exact foldl_insertLine_covers _ [] line hmem h1 h2

theorem C8_witness :
    ∃ w, ((pySplitWs ("web img cmd Up".toList)).headD [], w) ∈
      check_container_status stdoutW :=
  (C8_amended stdoutW).2 ("web img cmd Up".toList) (by decide) (by decide) (by decide)

/-- Claim C10: when the only failing checks are port-reachability checks
and service-health checks, neither selection key "port conflicts" nor
"services not healthy" occurs in the Python str of the issue list, so
suggest_fixes emits none of the port-conflict or unhealthy-service
remediation hints. -/
theorem C10 (pf hf : String → Bool) :
    containsSub ("port conflicts".toList)
      (pyStrList (portIssues pf ++ healthIssues hf)) = false ∧
    containsSub ("services not healthy".toList)
      (pyStrList (portIssues pf ++ healthIssues hf)) = false ∧
    "🔧 Stop conflicting services or change ports" ∉
      suggest_fixes (portIssues pf ++ healthIssues hf) ∧
    ("   Check what" ++ apos ++ "s using the ports: netstat -an | findstr :3000") ∉
      suggest_fixes (portIssues pf ++ healthIssues hf) ∧
    "🔧 Wait a few minutes for services to start" ∉
      suggest_fixes (portIssues pf ++ healthIssues hf) ∧
    "🔧 Check logs: docker-compose -f docker-compose.monitoring.yml logs" ∉
      suggest_fixes (portIssues pf ++ healthIssues hf) ∧
    "🔧 Restart services: docker-compose -f docker-compose.monitoring.yml restart" ∉
      suggest_fixes (portIssues pf ++ healthIssues hf) := by
  have hgood : ∀ e ∈ portIssues pf ++ healthIssues hf,
      noQuote e = true ∧ containsSub ("port conflicts".toList) e = false ∧
      containsSub ("services not healthy".toList) e = false := by
    intro e he
    rcases List.mem_append.1 he with h | h
    · obtain ⟨sv, hsv, heq⟩ := List.mem_map.1 h
      have hsv2 : sv ∈ services := (List.mem_filter.1 hsv).1
      rw [← heq]
      simp only [services, List.mem_cons, List.not_mem_nil, or_false] at hsv2
      rcases hsv2 with rfl | rfl | rfl | rfl | rfl | rfl <;>
        exact ⟨by decide, by decide, by decide⟩
    · obtain ⟨sv, hsv, heq⟩ := List.mem_map.1 h
      have hsv2 : sv ∈ services := (List.mem_filter.1 hsv).1
      rw [← heq]
      simp only [services, List.mem_cons, List.not_mem_nil, or_false] at hsv2
      rcases hsv2 with rfl | rfl | rfl | rfl | rfl | rfl <;>
        exact ⟨by decide, by decide, by decide⟩
  have hn1 : containsSub ("port conflicts".toList)
      (pyStrList (portIssues pf ++ healthIssues hf)) = false :=
    containsSub_pyStrList_false _ _ (by decide) (by decide) (by decide)
      (by decide) (by decide) (by decide)
      (fun e he => ⟨(hgood e he).1, (hgood e he).2.1⟩)
  have hn2 : containsSub ("services not healthy".toList)
      (pyStrList (portIssues pf ++ healthIssues hf)) = false :=
    containsSub_pyStrList_false _ _ (by decide) (by decide) (by decide)
      (by decide) (by decide) (by decide)
      (fun e he => ⟨(hgood e he).1, (hgood e he).2.2⟩)
  refine ⟨hn1, hn2, ?_, ?_, ?_, ?_, ?_⟩ <;>
  · simp only [suggest_fixes, hn1, hn2, Bool.false_eq_true, if_false]
    split_ifs <;> decide

theorem C10_witness :
    containsSub ("port conflicts".toList)
      (pyStrList (portIssues (fun _ => true) ++ healthIssues (fun _ => true))) = false ∧
    containsSub ("services not healthy".toList)
      (pyStrList (portIssues (fun _ => true) ++ healthIssues (fun _ => true))) = false :=
  ⟨(C10 (fun _ => true) (fun _ => true)).1,
   (C10 (fun _ => true) (fun _ => true)).2.1⟩
